import Mathlib

/-!
Verification of the MixRAG agentic retrieval application.

The development shallowly embeds the parts of the application that carry
control flow and correctness obligations: the in-memory retrieval index and
its top-k query path (src/document_retriever.py), the knowledge-base build
handler and session invalidation logic (app.py), the exception/fallback
handler around the agentic workflow stream (app.py), the streamed-text
content filter (app.py), the grader output schema (src/pydantic_models.py),
and the agent workflow state machine wired in MixRAGGraph.create_workflow
(src/graph.py).  Embedding vectors are integer lists and the similarity
measure is an explicit function parameter, so every definition is executable.
The node bodies imported from src/graph_nodes.py are not part of the source
tree; where a definition depends on them it is modelled from the
specification and marked as such in its documentation.
-/

namespace MixRAG

/-- A document chunk: text content plus source provenance, mirroring the
fields of the langchain documents the application passes around. -/
structure Doc where
  content : String
  source : String
deriving DecidableEq, Repr

/-- The in-memory vector index: each entry stores a chunk together with the
embedding vector computed for its content, as produced by
InMemoryVectorStore.from_documents in DocumentRetriever.create_vector_store. -/
structure Index where
  entries : List (Doc × List Int)
deriving DecidableEq, Repr

/-- DocumentRetriever.create_vector_store: one embedding call per chunk, the
vector stored alongside the chunk content and metadata.  The embedding
function is a parameter (OpenAIEmbeddings in the application). -/
def buildIndex (embed : String → List Int) (docs : List Doc) : Index :=
  ⟨docs.map (fun d => (d, embed d.content))⟩

/-- Ranking relation realised by the similarity search over enumerated index
entries: an entry precedes another if its similarity to the query vector is
strictly larger, with equal similarities broken by insertion position
(stable order, as produced by a stable descending sort on similarity). -/
def rank (simFn : List Int → List Int → Int) (qv : List Int)
    (a b : Nat × Doc × List Int) : Prop :=
  simFn qv b.2.2 < simFn qv a.2.2 ∨
    (simFn qv a.2.2 = simFn qv b.2.2 ∧ a.1 ≤ b.1)

instance (simFn : List Int → List Int → Int) (qv : List Int) :
    DecidableRel (rank simFn qv) := fun a b => by
  unfold rank
  infer_instance

instance (simFn : List Int → List Int → Int) (qv : List Int) :
    IsTotal (Nat × Doc × List Int) (rank simFn qv) where
  total a b := by
    rcases lt_trichotomy (simFn qv a.2.2) (simFn qv b.2.2) with h | h | h
    · exact Or.inr (Or.inl h)
    · rcases Nat.le_total a.1 b.1 with hn | hn
      · exact Or.inl (Or.inr ⟨h, hn⟩)
      · exact Or.inr (Or.inr ⟨h.symm, hn⟩)
    · exact Or.inl (Or.inl h)

instance (simFn : List Int → List Int → Int) (qv : List Int) :
    IsTrans (Nat × Doc × List Int) (rank simFn qv) where
  trans a b c hab hbc := by
    rcases hab with h1 | ⟨h1, h1n⟩ <;> rcases hbc with h2 | ⟨h2, h2n⟩
    · exact Or.inl (lt_trans h2 h1)
    · exact Or.inl (h2 ▸ h1)
    · exact Or.inl (h1 ▸ h2)
    · exact Or.inr ⟨h1.trans h2, h1n.trans h2n⟩

/-- The retriever configured in create_vector_store: a similarity search
returning the top 5 entries (search_type "similarity", search_kwargs k = 5),
realised as a stable descending sort on similarity followed by a prefix. -/
def retrieverInvoke (simFn : List Int → List Int → Int) (idx : Index)
    (qv : List Int) : List (Nat × Doc × List Int) :=
  (List.insertionSort (rank simFn qv) idx.entries.enum).take 5

/-- The ranked results of a top-k query before projection to documents:
what the retriever returns, truncated to k as done by retrieve_documents
and retrieve_top_k. -/
def rankedTopK (simFn : List Int → List Int → Int) (idx : Index)
    (qv : List Int) (k : Nat) : List (Nat × Doc × List Int) :=
  (retrieverInvoke simFn idx qv).take k

/-- DocumentRetriever.retrieve_documents: invoke the retriever directly and
truncate the result to at most k documents. -/
def retrieve_documents (simFn : List Int → List Int → Int) (idx : Index)
    (qv : List Int) (k : Nat) : List Doc :=
  (rankedTopK simFn idx qv k).map (fun p => p.2.1)

/-- DocumentRetriever.retrieve_top_k: get_relevant_documents followed by a
prefix of length k. -/
def retrieve_top_k (simFn : List Int → List Int → Int) (idx : Index)
    (qv : List Int) (k : Nat) : List Doc :=
  (rankedTopK simFn idx qv k).map (fun p => p.2.1)

/-- DocumentRetriever.__init__: raises ValueError "No document splits
provided" when the chunk sequence is empty, otherwise builds the vector
store over the chunks. -/
def documentRetrieverInit (embed : String → List Int) (doc_splits : List Doc) :
    Except String Index :=
  if doc_splits = [] then .error "No document splits provided"
  else .ok (buildIndex embed doc_splits)

/-- An input source as collected in the sidebar: an uploaded file (name and
raw content) or a pasted URL. -/
inductive Source
  | file (name : String) (content : String)
  | url (u : String)
deriving DecidableEq, Repr

/-- The session state relevant to the knowledge-base lifecycle, mirroring
the keys kept in st.session_state by app.py. -/
structure Session where
  knowledge_base_built : Bool
  current_sources : List Source
  document_retriever : Option Index
deriving DecidableEq, Repr

/-- The session state before anything is built. -/
def initSession : Session :=
  { knowledge_base_built := false, current_sources := [], document_retriever := none }

/-- The build-knowledge-base handler of app.py: load documents from the
sources, abort the run when nothing was loaded, split into chunks and
construct the DocumentRetriever; on an exception the handler shows an error
and leaves the session state untouched. -/
def buildKnowledgeBase (embed : String → List Int)
    (load : List Source → List Doc) (split : List Doc → List Doc)
    (st : Session) (sources : List Source) : Session :=
  if load sources = [] then st
  else
    match documentRetrieverInit embed (split (load sources)) with
    | .ok r =>
        { knowledge_base_built := true, current_sources := sources,
          document_retriever := some r }
    | .error _ => st

/-- One Streamlit rerun of the chat tab as far as the knowledge-base
lifecycle is concerned: the widget sources, whether the build button was
clicked, and the submitted question if any. -/
structure RerunInput where
  sources : List Source
  buildClicked : Bool
  userInput : Option String
deriving DecidableEq, Repr

/-- The sources-changed check of app.py: when the widget sources differ from
the sources recorded in the session, the knowledge base is marked unbuilt
and the retriever is discarded. -/
def invalidateIfChanged (st : Session) (sources : List Source) : Session :=
  if sources ≠ st.current_sources then
    { st with knowledge_base_built := false, document_retriever := none }
  else st

/-- The conditional build of app.py: rebuild only when the build button was
clicked and sources exist. -/
def maybeBuild (embed : String → List Int) (load : List Source → List Doc)
    (split : List Doc → List Doc) (st : Session) (inp : RerunInput) : Session :=
  if inp.buildClicked ∧ inp.sources ≠ [] then
    buildKnowledgeBase embed load split st inp.sources
  else st

/-- One execution of the chat tab script (app.py): invalidate the session
when the widget sources differ from the sources the current index was built
from, optionally rebuild, stop unless a knowledge base is built, and answer
a submitted question by direct retrieval against the session retriever.
Returns the new session and, when a question was answered, the evidence
documents used. -/
def rerun (embed : String → List Int) (simFn : List Int → List Int → Int)
    (embedQuery : String → List Int)
    (load : List Source → List Doc) (split : List Doc → List Doc)
    (st : Session) (inp : RerunInput) : Session × Option (List Doc) :=
  if (maybeBuild embed load split (invalidateIfChanged st inp.sources) inp).knowledge_base_built = false then
    (maybeBuild embed load split (invalidateIfChanged st inp.sources) inp, none)
  else
    match inp.userInput,
        (maybeBuild embed load split (invalidateIfChanged st inp.sources) inp).document_retriever with
    | some q, some idx =>
        (maybeBuild embed load split (invalidateIfChanged st inp.sources) inp,
          some (retrieve_documents simFn idx (embedQuery q) 3))
    | _, _ => (maybeBuild embed load split (invalidateIfChanged st inp.sources) inp, none)

/-- A whole session: fold reruns over an event list, recording for every
answered question the widget sources active at that rerun together with the
evidence documents used for the answer. -/
def runReruns (embed : String → List Int) (simFn : List Int → List Int → Int)
    (embedQuery : String → List Int)
    (load : List Source → List Doc) (split : List Doc → List Doc) :
    List RerunInput → Session → Session × List (List Source × List Doc)
  | [], st => (st, [])
  | inp :: rest, st =>
    ((runReruns embed simFn embedQuery load split rest
        (rerun embed simFn embedQuery load split st inp).1).1,
      (match (rerun embed simFn embedQuery load split st inp).2 with
       | some ev => [(inp.sources, ev)]
       | none => []) ++
      (runReruns embed simFn embedQuery load split rest
        (rerun embed simFn embedQuery load split st inp).1).2)

/-- The index-validity invariant: whenever the session claims a built
knowledge base, the stored retriever is exactly the index built from the
session's current source set through the load/split pipeline. -/
def SessionInv (embed : String → List Int) (load : List Source → List Doc)
    (split : List Doc → List Doc) (st : Session) : Prop :=
  st.knowledge_base_built = true →
    st.document_retriever = some (buildIndex embed (split (load st.current_sources)))

/-- The deterministic no-information message of the workflow exception
handler in app.py. -/
def noInfoMessage : String :=
  "I couldn\x27t find any relevant information to answer your question."

/-- The error message template of the workflow exception handler in app.py:
it interpolates the text of the original exception. -/
def errorMessage (e : String) : String :=
  "Sorry, I encountered an error while processing your question: " ++ e

/-- The fallback prompt built by the workflow exception handler in app.py:
the question followed by the concatenation of the top retrieved chunks. -/
def fallbackPrompt (question : String) (contexts : List String) : String :=
  "Based on the following context, answer this question: " ++ question ++
    "\n\nContext:\n" ++ String.intercalate "\n\n" (contexts.take 3)

/-- The except handler wrapped around the agentic workflow stream in app.py:
when evidence from the direct retrieval call exists, run a single-shot
generation over the fallback prompt; if that call fails too, answer with the
error template; with no evidence, answer with the no-information message.
The fallback model call is a parameter returning none on failure. -/
def handleWorkflowError (model : String → Option String)
    (errText question : String) (retrieved_docs : List String) : String :=
  if retrieved_docs = [] then noInfoMessage
  else
    match model (fallbackPrompt question retrieved_docs) with
    | some content => content
    | none => errorMessage errText

/-- Python whitespace as used by str.strip with no argument. -/
def isPyWS (c : Char) : Bool :=
  c = ' ' || c = '\t' || c = '\n' || c = '\r' || c = '\x0b' || c = '\x0c'

/-- Python str.strip: drop leading and trailing whitespace. -/
def pyStrip (s : String) : String :=
  ⟨((s.data.dropWhile isPyWS).reverse.dropWhile isPyWS).reverse⟩

/-- Python str.lower restricted to the character-wise lowering Lean provides
(ASCII-correct, which covers every keyword the filter checks). -/
def pyLower (s : String) : String :=
  ⟨s.data.map Char.toLower⟩

/-- Whether a character list starts with an opening curly brace. -/
def startsWithBrace : List Char → Bool
  | '\x7b' :: _ => true
  | _ => false

/-- Whether a character list ends with a closing curly brace. -/
def endsWithBrace (l : List Char) : Bool :=
  match l.reverse with
  | '\x7d' :: _ => true
  | _ => false

/-- Substring test on character lists, mirroring the Python in operator. -/
def isSubList (needle : List Char) : List Char → Bool
  | [] => needle.isEmpty
  | c :: t => needle.isPrefixOf (c :: t) || isSubList needle t

/-- The skip_keywords list of clean_streamed_text in app.py. -/
def skip_keywords : List String :=
  ["binary_score", "email", "linkedin", "github", "website",
   "experience", "education •", "•", "http://", "https://"]

/-- clean_streamed_text from app.py: strip the fragment, drop it when the
stripped text is empty, looks like JSON (starts with an opening and ends
with a closing curly brace), or its lowercase form contains any skip
keyword; otherwise return the stripped text. -/
def clean_streamed_text (text : String) : String :=
  let t := pyStrip text
  if t.data.isEmpty then ""
  else if startsWithBrace t.data && endsWithBrace t.data then ""
  else if skip_keywords.any (fun kw => isSubList kw.data (pyLower t).data) then ""
  else t

/-- A fragment the filter is required to drop, exactly as enumerated by the
conditions of clean_streamed_text. -/
def badFragment (f : String) : Bool :=
  let t := pyStrip f
  t.data.isEmpty || (startsWithBrace t.data && endsWithBrace t.data) ||
    skip_keywords.any (fun kw => isSubList kw.data (pyLower t).data)

/-- One iteration of the streaming loop in app.py: clean the fragment and,
unless the cleaned text is empty, append it to the accumulated answer
followed by a space. -/
def streamStep (acc f : String) : String :=
  let c := clean_streamed_text f
  if c = "" then acc else acc ++ c ++ " "

/-- The assembled agentic answer: fold the streaming loop over the streamed
fragments. -/
def assemble_response (frags : List String) : String :=
  frags.foldl streamStep ""

/-- A Python value as it can reach a pydantic field: a string, an integer,
or None. -/
inductive PyValue
  | pstr (s : String)
  | pint (n : Int)
  | pnone
deriving DecidableEq, Repr

/-- GradeDocuments from src/pydantic_models.py: a model with the single
field binary_score annotated as a plain str, carrying only a natural
language description of the intended values. -/
structure GradeDocuments where
  binary_score : String
deriving DecidableEq, Repr

/-- Pydantic validation of GradeDocuments: the field must be present and be
a string; the annotation places no constraint on which string, so every
string value is accepted. -/
def validateGradeDocuments (field : Option PyValue) : Except String GradeDocuments :=
  match field with
  | some (.pstr s) => .ok ⟨s⟩
  | some _ => .error "Input should be a valid string"
  | none => .error "Field required"

/-- Modelled from the spec: the routing step of grade_documents, whose body
lives in src/graph_nodes.py and is not part of the source tree.  Per the
specification the grader result is consumed as a binary label and any score
other than the affirmative one is treated as not relevant, routing to the
rewrite node rather than accepting the evidence. -/
def gradeDocumentsRoute (g : GradeDocuments) : String :=
  if g.binary_score = "yes" then "generate_answer" else "rewrite_question"

/-- Nodes of the compiled workflow of MixRAGGraph.create_workflow, with done
standing for the END sentinel. -/
inductive Node
  | generate_query_or_respond
  | retrieve
  | rewrite_question
  | generate_answer
  | done
deriving DecidableEq, Repr

/-- The per-turn traversal state: the active node, the active question, the
evidence last retrieved, the number of rewrites performed so far, and how
often the decide node has executed. -/
structure AgentState where
  node : Node
  question : String
  evidence : List String
  rewrites : Nat
  decideVisits : Nat
deriving DecidableEq, Repr

/-- The model-backed and configuration parameters of a traversal: the
rewrite limit, whether the decide model emits a tool call (given the active
question and the decide visit count), the retrieval tool, the grader verdict
on (question, evidence), and the question rewriter. -/
structure AgentParams where
  rewriteLimit : Nat
  decideCallsTool : String → Nat → Bool
  retrieveFn : String → List String
  gradeFn : String → List String → Bool
  rewriteFn : String → String

/-- Modelled from the spec: the routing decision of grade_documents
(src/graph_nodes.py, absent from the source tree).  A relevant verdict
routes to the answer node; an irrelevant verdict routes to the rewrite node
while the rewrite budget lasts and is forced to the answer node once the
maximum rewrite count per user turn is reached. -/
def gradeRouteSpec (P : AgentParams) (question : String) (rewrites : Nat)
    (ev : List String) : Node :=
  if P.gradeFn question ev then .generate_answer
  else if rewrites < P.rewriteLimit then .rewrite_question
  else .generate_answer

/-- One transition of the compiled workflow.  The edge wiring is that of
MixRAGGraph.create_workflow: START to decide; decide to retrieve on a tool
call and straight to END on a direct response (tools_condition); retrieve
routed by grade_documents to generate_answer or rewrite_question;
rewrite_question back to decide; generate_answer to END. -/
def step (P : AgentParams) (s : AgentState) : AgentState :=
  match s.node with
  | .generate_query_or_respond =>
    let v := s.decideVisits + 1
    if P.decideCallsTool s.question v then
      { s with node := .retrieve, decideVisits := v }
    else
      { s with node := .done, decideVisits := v }
  | .retrieve =>
    let ev := P.retrieveFn s.question
    { s with node := gradeRouteSpec P s.question s.rewrites ev, evidence := ev }
  | .rewrite_question =>
    { s with node := .generate_query_or_respond,
             question := P.rewriteFn s.question, rewrites := s.rewrites + 1 }
  | .generate_answer => { s with node := .done }
  | .done => s

/-- Iterate the workflow transition n times. -/
def runSteps (P : AgentParams) : Nat → AgentState → AgentState
  | 0, s => s
  | n + 1, s => runSteps P n (step P s)

/-- The traversal state at the start of a user turn. -/
def initAgent (q : String) : AgentState :=
  { node := .generate_query_or_respond, question := q, evidence := [],
    rewrites := 0, decideVisits := 0 }

/-- Integer dot product, a concrete similarity measure used to instantiate
the similarity parameter in concrete runs. -/
def dotSim (a b : List Int) : Int :=
  ((a.zip b).map (fun p => p.1 * p.2)).foldl (· + ·) 0

/-- A concrete embedding function for concrete runs: the length of the text
as a one-dimensional vector. -/
def lenEmbed (s : String) : List Int :=
  [(s.length : Int)]

/-- A concrete chunk used in concrete runs. -/
def docA : Doc := ⟨"cats are mammals", "a"⟩

/-- A second concrete chunk used in concrete runs. -/
def docB : Doc := ⟨"dogs are mammals", "b"⟩

/-- A concrete two-chunk index used in concrete runs. -/
def idxW : Index := buildIndex lenEmbed [docA, docB]

/-- Concrete traversal parameters whose grader never accepts evidence and
whose decide model always calls the retrieval tool. -/
def agentParamsW : AgentParams :=
  { rewriteLimit := 2, decideCallsTool := fun _ _ => true,
    retrieveFn := fun _ => ["ev"], gradeFn := fun _ _ => false,
    rewriteFn := fun q => q ++ "?" }

/-- Concrete traversal parameters whose grader accepts the first evidence. -/
def agentParamsRelW : AgentParams :=
  { rewriteLimit := 2, decideCallsTool := fun _ _ => true,
    retrieveFn := fun _ => ["ev"], gradeFn := fun _ _ => true,
    rewriteFn := fun q => q ++ "?" }

/-- A concrete traversal state sitting at the retrieve node with the rewrite
budget already exhausted. -/
def stateAtLimit : AgentState :=
  { node := .retrieve, question := "q", evidence := [], rewrites := 2,
    decideVisits := 3 }

/-- A concrete traversal state sitting at the retrieve node with the rewrite
budget untouched. -/
def stateFresh : AgentState :=
  { node := .retrieve, question := "q", evidence := [], rewrites := 0,
    decideVisits := 1 }

/-- A concrete fallback model call that always fails. -/
def modelNoneW : String → Option String := fun _ => none

/-- A concrete fallback model call that always answers. -/
def modelOkW : String → Option String := fun _ => some "ok"

/-- A concrete loader for concrete runs: one single-chunk document per
source, named after the source. -/
def loadW : List Source → List Doc :=
  fun srcs => srcs.map (fun s =>
    match s with
    | .file n _ => ⟨n, n⟩
    | .url u => ⟨u, u⟩)

/-- A concrete splitter for concrete runs: the identity. -/
def splitW : List Doc → List Doc := fun ds => ds

/-- A concrete rerun event list for concrete runs: build from one URL, then
ask one question over the built knowledge base. -/
def eventsW : List RerunInput :=
  [{ sources := [.url "a"], buildClicked := true, userInput := none },
   { sources := [.url "a"], buildClicked := false, userInput := some "q" }]

/-- Appending to a string with non-empty data yields a non-empty string. -/
theorem string_append_ne_empty_left (s t : String) (h : s.data ≠ []) :
    s ++ t ≠ "" := by
  intro hc
  apply h
  have h2 : (s ++ t).data = "".data := congrArg String.data hc
  rw [String.data_append] at h2
  exact (List.append_eq_nil.mp h2).1

/-- The error template never produces the empty string. -/
theorem errorMessage_ne_empty (e : String) : errorMessage e ≠ "" :=
  string_append_ne_empty_left _ _ (by decide)

/-- C4: building the retrieval index from an empty chunk sequence fails with
an error (the ValueError standing for EmptyInputError) instead of
constructing an index, and the build handler leaves the session unchanged in
that case, so an empty index is never swapped in as the active knowledge
base. -/
theorem empty_build_rejected (embed : String → List Int)
    (load : List Source → List Doc) (split : List Doc → List Doc)
    (st : Session) (sources : List Source)
    (h : split (load sources) = []) :
    documentRetrieverInit embed [] = .error "No document splits provided" ∧
    buildKnowledgeBase embed load split st sources = st := by
  refine ⟨rfl, ?_⟩
  unfold buildKnowledgeBase
  by_cases hl : load sources = []
  · simp [hl]
  · simp [hl, h, documentRetrieverInit]

/-- Witness for the empty-build theorem at a concrete empty input. -/
theorem empty_build_rejected_witness :
    documentRetrieverInit lenEmbed [] = .error "No document splits provided" ∧
    buildKnowledgeBase lenEmbed (fun _ => []) (fun ds => ds) initSession [] = initSession :=
  empty_build_rejected lenEmbed (fun _ => []) (fun ds => ds) initSession [] rfl

/-- C9: index building is deterministic and idempotent with respect to chunk
content: with a fixed embedding function, building twice from identical
chunk sequences yields identical query rankings for every fixed query. -/
theorem build_idempotent_ranking (embed : String → List Int)
    (simFn : List Int → List Int → Int) (c1 c2 : List Doc) (h : c1 = c2)
    (qv : List Int) (k : Nat) :
    retrieve_documents simFn (buildIndex embed c1) qv k
      = retrieve_documents simFn (buildIndex embed c2) qv k := by
  rw [h]

/-- Witness for build idempotence at a concrete chunk list and query. -/
theorem build_idempotent_ranking_witness :
    retrieve_documents dotSim (buildIndex lenEmbed [docA, docB]) [1] 2
      = retrieve_documents dotSim (buildIndex lenEmbed [docA, docB]) [1] 2 :=
  build_idempotent_ranking lenEmbed dotSim [docA, docB] [docA, docB] rfl [1] 2

/-- C2: evaluation of the workflow exception handler at the failing input.
When the agentic traversal fails and the single-shot fallback generation
also fails while retrieved evidence exists, the code produces the error
template with the raw exception text embedded in the user-visible answer —
not the deterministic no-relevant-information message the propagation
policy requires (that message is instead the empty-evidence branch). -/
theorem error_text_reaches_user :
    handleWorkflowError modelNoneW "boom" "q" ["chunk"] = errorMessage "boom" ∧
    isSubList "boom".data (handleWorkflowError modelNoneW "boom" "q" ["chunk"]).data = true ∧
    handleWorkflowError modelNoneW "boom" "q" ["chunk"] ≠ noInfoMessage :=
  ⟨rfl, by decide, by decide⟩

/-- Branch behavior of the workflow exception handler: a failing fallback
generation with existing evidence yields the fixed error template with the
original exception text interpolated, while the deterministic
no-relevant-information message is the branch taken when no evidence was
retrieved. -/
theorem fallback_failure_messages (model : String → Option String)
    (e q : String) (docs : List String)
    (hd : docs ≠ []) (hm : model (fallbackPrompt q docs) = none) :
    handleWorkflowError model e q docs = errorMessage e ∧
    handleWorkflowError model e q [] = noInfoMessage := by
  constructor
  · unfold handleWorkflowError
    simp [hd, hm]
  · rfl

/-- Witness for the fallback-message branch theorem at a concrete failing
model call. -/
theorem fallback_failure_messages_witness :
    handleWorkflowError modelNoneW "boom" "q" ["chunk"] = errorMessage "boom" ∧
    handleWorkflowError modelNoneW "boom" "q" [] = noInfoMessage :=
  fallback_failure_messages modelNoneW "boom" "q" ["chunk"] (by decide) rfl

/-- C3: whenever the agentic traversal raises, the caller's handler still
returns an answer (it is a total function, so no error propagates), the
answer is never the empty string provided the fallback model never returns
empty text, and when direct top-k retrieval found evidence and the fallback
call succeeds, the answer is exactly the generation over (question,
concatenated top chunks). -/
theorem fallback_always_answers (model : String → Option String)
    (e q : String) (simFn : List Int → List Int → Int) (idx : Index)
    (qv : List Int)
    (hm : ∀ p a, model p = some a → a ≠ "") :
    handleWorkflowError model e q ((retrieve_documents simFn idx qv 3).map Doc.content) ≠ "" ∧
    (∀ a, model (fallbackPrompt q ((retrieve_documents simFn idx qv 3).map Doc.content)) = some a →
      (retrieve_documents simFn idx qv 3).map Doc.content ≠ [] →
      handleWorkflowError model e q ((retrieve_documents simFn idx qv 3).map Doc.content) = a) := by
  constructor
  · unfold handleWorkflowError
    by_cases h : (retrieve_documents simFn idx qv 3).map Doc.content = []
    · simp [h]
      decide
    · simp [h]
      cases hmod : model (fallbackPrompt q ((retrieve_documents simFn idx qv 3).map Doc.content)) with
      | some a => exact hm _ a hmod
      | none => exact errorMessage_ne_empty e
  · intro a hmod hne
    unfold handleWorkflowError
    simp [hne, hmod]

/-- Witness for the fallback-answer theorem at a concrete index, query and
fallback model. -/
theorem fallback_always_answers_witness :
    handleWorkflowError modelOkW "boom" "q" ((retrieve_documents dotSim idxW [1] 3).map Doc.content) ≠ "" ∧
    handleWorkflowError modelOkW "boom" "q" ((retrieve_documents dotSim idxW [1] 3).map Doc.content) = "ok" := by
  have h := fallback_always_answers modelOkW "boom" "q" dotSim idxW [1]
    (fun p a hpa => by
      cases hpa
      decide)
  exact ⟨h.1, h.2 "ok" rfl (by decide)⟩

/-- Any fragment meeting one of the filter conditions is cleaned to the
empty string. -/
theorem clean_eq_empty_of_bad (f : String) (h : badFragment f = true) :
    clean_streamed_text f = "" := by
  cases hb1 : (pyStrip f).data.isEmpty with
  | true => simp [clean_streamed_text, hb1]
  | false =>
    cases hb2 : startsWithBrace (pyStrip f).data && endsWithBrace (pyStrip f).data with
    | true => simp [clean_streamed_text, hb1, hb2]
    | false =>
      cases hb3 : skip_keywords.any (fun kw => isSubList kw.data (pyLower (pyStrip f)).data) with
      | true => simp [clean_streamed_text, hb1, hb2, hb3]
      | false =>
        exfalso
        simp only [badFragment, hb1, hb2, hb3] at h
        simp at h

/-- C10: every streamed fragment passes through the content filter before
being appended: a fragment that is empty after stripping, looks like a JSON
object, or contains a skip keyword is cleaned to the empty string and is
dropped entirely from the assembled answer, wherever it occurs in the
stream. -/
theorem stream_filter_drops_bad (f : String) (h : badFragment f = true) :
    clean_streamed_text f = "" ∧
    ∀ pre post : List String,
      assemble_response (pre ++ f :: post) = assemble_response (pre ++ post) := by
  have hc := clean_eq_empty_of_bad f h
  refine ⟨hc, ?_⟩
  intro pre post
  unfold assemble_response
  rw [List.foldl_append, List.foldl_append]
  have hstep : streamStep (List.foldl streamStep "" pre) f
      = List.foldl streamStep "" pre := by
    unfold streamStep
    simp [hc]
  show List.foldl streamStep (streamStep (List.foldl streamStep "" pre) f) post = _
  rw [hstep]

/-- Witness for the stream filter at a concrete dropped fragment: a fragment
carrying a URL is removed from the assembled answer. -/
theorem stream_filter_drops_bad_witness :
    clean_streamed_text "see https://x.y" = "" ∧
    assemble_response (["Hello"] ++ "see https://x.y" :: ["world"])
      = assemble_response (["Hello"] ++ ["world"]) := by
  have h := stream_filter_drops_bad "see https://x.y" (by decide)
  exact ⟨h.1, h.2 ["Hello"] ["world"]⟩

/-- C8 fails as stated: the grader output schema does not constrain the
label to the two enumerated values — a score outside both labels passes
pydantic validation without any error. -/
theorem grader_schema_counterexample :
    validateGradeDocuments (some (.pstr "maybe")) = .ok ⟨"maybe"⟩ ∧
    "maybe" ≠ "yes" ∧ "maybe" ≠ "no" :=
  ⟨rfl, by decide, by decide⟩

/-- C8 amended: the schema validates only that binary_score is a string, so
any string label is accepted without a format error; the grade routing
(modelled from the spec, its source being absent) nevertheless treats every
label other than the affirmative one as not relevant and forces a retry, so
out-of-enumeration labels never cause unverified evidence to be accepted. -/
theorem grader_schema_defaults (s : String) (h1 : s ≠ "yes") (h2 : s ≠ "no") :
    validateGradeDocuments (some (.pstr s)) = .ok ⟨s⟩ ∧
    gradeDocumentsRoute ⟨s⟩ = "rewrite_question" ∧
    gradeDocumentsRoute ⟨"no"⟩ = "rewrite_question" ∧
    gradeDocumentsRoute ⟨"yes"⟩ = "generate_answer" := by
  refine ⟨rfl, ?_, rfl, rfl⟩
  unfold gradeDocumentsRoute
  simp [h1]

/-- Witness for the grader-default theorem at the concrete malformed label. -/
theorem grader_schema_defaults_witness :
    validateGradeDocuments (some (.pstr "maybe")) = .ok ⟨"maybe"⟩ ∧
    gradeDocumentsRoute ⟨"maybe"⟩ = "rewrite_question" ∧
    gradeDocumentsRoute ⟨"no"⟩ = "rewrite_question" ∧
    gradeDocumentsRoute ⟨"yes"⟩ = "generate_answer" :=
  grader_schema_defaults "maybe" (by decide) (by decide)

/-- Splitting an iteration of the workflow transition. -/
theorem runSteps_add (P : AgentParams) (a b : Nat) (s : AgentState) :
    runSteps P (a + b) s = runSteps P b (runSteps P a s) := by
  induction a generalizing s with
  | zero => simp [runSteps]
  | succ n ih =>
    have h : n + 1 + b = (n + b) + 1 := by omega
    rw [h]
    show runSteps P (n + b) (step P s) = _
    rw [ih]
    rfl

/-- The rewrite loop under a permanently rejecting grader: from the decide
node with d rewrites left in the budget, the traversal reaches the answer
node after 3d+2 transitions, terminates after 3d+3, and executes decide
exactly d+1 more times. -/
theorem loop_bound (P : AgentParams)
    (hGrade : ∀ q ev, P.gradeFn q ev = false)
    (hDecide : ∀ q v, P.decideCallsTool q v = true) :
    ∀ d s, s.node = Node.generate_query_or_respond →
      s.rewrites + d = P.rewriteLimit →
      (runSteps P (3 * d + 2) s).node = Node.generate_answer ∧
      (runSteps P (3 * d + 3) s).node = Node.done ∧
      (runSteps P (3 * d + 3) s).decideVisits = s.decideVisits + d + 1 := by
  intro d
  induction d with
  | zero =>
    intro s hn hr
    obtain ⟨nd, qu, ev, rc, dv⟩ := s
    simp only at hn hr
    subst hn
    have hnlt : ¬ (rc < P.rewriteLimit) := by omega
    simp [runSteps, step, hDecide, hGrade, gradeRouteSpec, hnlt]
  | succ k ih =>
    intro s hn hr
    obtain ⟨nd, qu, ev, rc, dv⟩ := s
    simp only at hn hr
    subst hn
    have hlt : rc < P.rewriteLimit := by omega
    have h3 : runSteps P 3 ⟨Node.generate_query_or_respond, qu, ev, rc, dv⟩
        = ⟨Node.generate_query_or_respond, P.rewriteFn qu, P.retrieveFn qu, rc + 1, dv + 1⟩ := by
      simp [runSteps, step, hDecide, hGrade, gradeRouteSpec, hlt]
    obtain ⟨h1, h2, h4⟩ := ih ⟨Node.generate_query_or_respond, P.rewriteFn qu,
      P.retrieveFn qu, rc + 1, dv + 1⟩ rfl (by show rc + 1 + k = P.rewriteLimit; omega)
    have ha1 : 3 * (k + 1) + 2 = 3 + (3 * k + 2) := by omega
    have ha2 : 3 * (k + 1) + 3 = 3 + (3 * k + 3) := by omega
    refine ⟨?_, ?_, ?_⟩
    · rw [ha1, runSteps_add, h3]
      exact h1
    · rw [ha2, runSteps_add, h3]
      exact h2
    · rw [ha2, runSteps_add, h3, h4]
      simp only
      omega

/-- C1: a maximum rewrite count per user turn is enforced; when every
retrieval batch is graded not relevant and the decide model keeps calling
the tool, the traversal still reaches the answer node, terminates, and
executes the decide node exactly rewriteLimit + 1 times — it never loops
indefinitely through decide, retrieve, grade and rewrite. -/
theorem bounded_rewrite_termination (P : AgentParams) (q : String)
    (hGrade : ∀ qq ev, P.gradeFn qq ev = false)
    (hDecide : ∀ qq v, P.decideCallsTool qq v = true) :
    (runSteps P (3 * P.rewriteLimit + 2) (initAgent q)).node = Node.generate_answer ∧
    (runSteps P (3 * P.rewriteLimit + 3) (initAgent q)).node = Node.done ∧
    (runSteps P (3 * P.rewriteLimit + 3) (initAgent q)).decideVisits = P.rewriteLimit + 1 := by
  have h := loop_bound P hGrade hDecide P.rewriteLimit (initAgent q) rfl (by simp [initAgent])
  simpa [initAgent] using h

/-- Witness for bounded termination at concrete parameters with rewrite
limit 2 and a grader that never accepts. -/
theorem bounded_rewrite_termination_witness :
    (runSteps agentParamsW (3 * 2 + 2) (initAgent "q")).node = Node.generate_answer ∧
    (runSteps agentParamsW (3 * 2 + 3) (initAgent "q")).node = Node.done ∧
    (runSteps agentParamsW (3 * 2 + 3) (initAgent "q")).decideVisits = 2 + 1 :=
  bounded_rewrite_termination agentParamsW "q" (fun _ _ => rfl) (fun _ _ => rfl)

/-- C5 fails as stated: with the spec-mandated rewrite cap in place, a
not-relevant grade at the retrieve node does not go to the rewrite node once
the rewrite budget is exhausted — it is forced to the answer node. -/
theorem grader_gate_counterexample :
    agentParamsW.gradeFn stateAtLimit.question
      (agentParamsW.retrieveFn stateAtLimit.question) = false ∧
    (step agentParamsW stateAtLimit).node ≠ Node.rewrite_question ∧
    (step agentParamsW stateAtLimit).node = Node.generate_answer := by
  decide

/-- C5 amended: after the retrieve node the next state is determined by the
grader's label while the rewrite budget lasts — a relevant grade always goes
straight to the answer node with the graded evidence passed through
unchanged, and a not-relevant grade goes to the rewrite node (which routes
back to decide) whenever the rewrite count is below the limit. -/
theorem grader_gate (P : AgentParams) (s : AgentState)
    (hn : s.node = Node.retrieve) :
    (P.gradeFn s.question (P.retrieveFn s.question) = true →
      (step P s).node = Node.generate_answer ∧
      (step P s).evidence = P.retrieveFn s.question) ∧
    (P.gradeFn s.question (P.retrieveFn s.question) = false →
      s.rewrites < P.rewriteLimit →
      (step P s).node = Node.rewrite_question ∧
      (step P s).evidence = P.retrieveFn s.question ∧
      (step P (step P s)).node = Node.generate_query_or_respond) := by
  obtain ⟨nd, qu, ev, rc, dv⟩ := s
  simp only at hn
  subst hn
  constructor
  · intro hg
    simp [step, gradeRouteSpec, hg]
  · intro hg hlt
    simp [step, gradeRouteSpec, hg, hlt]

/-- Witness for the amended grader gate: a relevant grade routes to the
answer node with the evidence unchanged, and a not-relevant grade under the
rewrite limit routes to the rewrite node and back to decide. -/
theorem grader_gate_witness :
    (step agentParamsRelW stateFresh).node = Node.generate_answer ∧
    (step agentParamsRelW stateFresh).evidence = agentParamsRelW.retrieveFn stateFresh.question ∧
    (step agentParamsW stateFresh).node = Node.rewrite_question ∧
    (step agentParamsW stateFresh).evidence = agentParamsW.retrieveFn stateFresh.question ∧
    (step agentParamsW (step agentParamsW stateFresh)).node = Node.generate_query_or_respond := by
  have hrel := (grader_gate agentParamsRelW stateFresh rfl).1 rfl
  have hnot := (grader_gate agentParamsW stateFresh rfl).2 rfl (by decide)
  exact ⟨hrel.1, hrel.2, hnot.1, hnot.2.1, hnot.2.2⟩

/-- C6: a top-k query returns at most k chunks, drawn from the index,
ordered by descending similarity with ties broken by stable insertion order
(the rank relation), and maximal: every index entry left out ranks no better
than any returned entry. -/
theorem retrieve_topk_spec (simFn : List Int → List Int → Int) (idx : Index)
    (qv : List Int) (k : Nat) :
    retrieve_documents simFn idx qv k
      = (rankedTopK simFn idx qv k).map (fun p => p.2.1) ∧
    (rankedTopK simFn idx qv k).length ≤ k ∧
    List.Pairwise (rank simFn qv) (rankedTopK simFn idx qv k) ∧
    (∀ p ∈ rankedTopK simFn idx qv k, p ∈ idx.entries.enum) ∧
    (∀ p ∈ rankedTopK simFn idx qv k, ∀ e ∈ idx.entries.enum,
      e ∉ rankedTopK simFn idx qv k → rank simFn qv p e) := by
  have hsorted : List.Sorted (rank simFn qv)
      (List.insertionSort (rank simFn qv) idx.entries.enum) :=
    List.sorted_insertionSort _ _
  have hperm : List.Perm (List.insertionSort (rank simFn qv) idx.entries.enum)
      idx.entries.enum :=
    List.perm_insertionSort _ _
  have hres : rankedTopK simFn idx qv k
      = (List.insertionSort (rank simFn qv) idx.entries.enum).take (min k 5) := by
    rw [rankedTopK, retrieverInvoke, List.take_take]
  refine ⟨rfl, ?_, ?_, ?_, ?_⟩
  · exact List.length_take_le k _
  · rw [hres]
    exact List.Pairwise.sublist (List.take_sublist _ _) hsorted
  · intro p hp
    rw [hres] at hp
    exact hperm.subset (List.mem_of_mem_take hp)
  · intro p hp e he hne
    rw [hres] at hp hne
    have hes : e ∈ List.insertionSort (rank simFn qv) idx.entries.enum :=
      hperm.symm.subset he
    rw [← List.take_append_drop (min k 5)
      (List.insertionSort (rank simFn qv) idx.entries.enum)] at hes
    rcases List.mem_append.mp hes with hin | hdrop
    · exact absurd hin hne
    · exact hsorted.rel_of_mem_take_of_mem_drop hp hdrop

/-- Witness for the top-k query theorem at a concrete index where the two
chunks tie in similarity: the single returned entry is the earlier-inserted
chunk and it ranks no worse than the excluded one. -/
theorem retrieve_topk_spec_witness :
    retrieve_documents dotSim idxW [1] 1
      = (rankedTopK dotSim idxW [1] 1).map (fun p => p.2.1) ∧
    (rankedTopK dotSim idxW [1] 1).length ≤ 1 ∧
    rank dotSim [1] (0, docA, lenEmbed docA.content) (1, docB, lenEmbed docB.content) := by
  have h := retrieve_topk_spec dotSim idxW [1] 1
  refine ⟨h.1, h.2.1, ?_⟩
  exact h.2.2.2.2 (0, docA, lenEmbed docA.content) (by decide)
    (1, docB, lenEmbed docB.content) (by decide) (by decide)

/-- An enumerated pair comes from the underlying list. -/
theorem snd_mem_of_mem_enumFrom {α : Type} (l : List α) (i : Nat)
    (p : Nat × α) (h : p ∈ l.enumFrom i) : p.2 ∈ l := by
  induction l generalizing i with
  | nil => cases h
  | cons a t ih =>
    rcases List.mem_cons.mp h with he | ht
    · rw [he]
      exact List.mem_cons_self a t
    · exact List.mem_cons_of_mem a (ih (i + 1) ht)

/-- Every document returned by a query against a built index is one of the
chunks the index was built from. -/
theorem mem_retrieve_buildIndex (embed : String → List Int)
    (simFn : List Int → List Int → Int) (qv : List Int) (k : Nat)
    (docs : List Doc) (d : Doc)
    (h : d ∈ retrieve_documents simFn (buildIndex embed docs) qv k) :
    d ∈ docs := by
  unfold retrieve_documents at h
  obtain ⟨p, hp, hpd⟩ := List.mem_map.mp h
  have hp2 : p ∈ (buildIndex embed docs).entries.enum := by
    refine (List.perm_insertionSort (rank simFn qv) _).subset ?_
    rw [rankedTopK, retrieverInvoke] at hp
    exact List.mem_of_mem_take (List.mem_of_mem_take hp)
  have hp3 : p.2 ∈ (buildIndex embed docs).entries :=
    snd_mem_of_mem_enumFrom _ 0 p hp2
  rw [buildIndex] at hp3
  obtain ⟨x, hx, hfx⟩ := List.mem_map.mp hp3
  rw [← hpd, ← hfx]
  exact hx

/-- Case split for the build handler: it either leaves the session alone or
installs exactly the session built from the given sources. -/
theorem buildKB_cases (embed : String → List Int)
    (load : List Source → List Doc) (split : List Doc → List Doc)
    (st : Session) (sources : List Source) :
    buildKnowledgeBase embed load split st sources = st ∨
    buildKnowledgeBase embed load split st sources =
      { knowledge_base_built := true, current_sources := sources,
        document_retriever := some (buildIndex embed (split (load sources))) } := by
  unfold buildKnowledgeBase documentRetrieverInit
  by_cases h1 : load sources = []
  · left
    simp [h1]
  · by_cases h2 : split (load sources) = []
    · left
      simp [h1, h2]
    · right
      simp [h1, h2]

/-- If the invalidation step leaves a built session, the widget sources
match the recorded sources and the retriever is the index built from them. -/
theorem invalidate_built (embed : String → List Int)
    (load : List Source → List Doc) (split : List Doc → List Doc)
    (st : Session) (sources : List Source)
    (hInv : SessionInv embed load split st)
    (hb : (invalidateIfChanged st sources).knowledge_base_built = true) :
    (invalidateIfChanged st sources).current_sources = sources ∧
    (invalidateIfChanged st sources).document_retriever
      = some (buildIndex embed (split (load sources))) := by
  unfold invalidateIfChanged at hb ⊢
  by_cases hc : sources ≠ st.current_sources
  · rw [if_pos hc] at hb
    simp at hb
  · rw [if_neg hc] at hb ⊢
    push_neg at hc
    have hr := hInv hb
    refine ⟨hc.symm, ?_⟩
    rw [hr, hc]

/-- After invalidation and conditional rebuild, a built session records the
widget sources and holds exactly the index built from them. -/
theorem rerun_built_state (embed : String → List Int)
    (load : List Source → List Doc) (split : List Doc → List Doc)
    (st : Session) (inp : RerunInput)
    (hInv : SessionInv embed load split st)
    (hb : (maybeBuild embed load split (invalidateIfChanged st inp.sources) inp).knowledge_base_built = true) :
    (maybeBuild embed load split (invalidateIfChanged st inp.sources) inp).current_sources = inp.sources ∧
    (maybeBuild embed load split (invalidateIfChanged st inp.sources) inp).document_retriever
      = some (buildIndex embed (split (load inp.sources))) := by
  unfold maybeBuild at hb ⊢
  by_cases hclick : inp.buildClicked ∧ inp.sources ≠ []
  · rw [if_pos hclick] at hb ⊢
    rcases buildKB_cases embed load split (invalidateIfChanged st inp.sources) inp.sources with hA | hB
    · rw [hA] at hb ⊢
      exact invalidate_built embed load split st inp.sources hInv hb
    · rw [hB]
      exact ⟨rfl, rfl⟩
  · rw [if_neg hclick] at hb ⊢
    exact invalidate_built embed load split st inp.sources hInv hb

/-- One rerun preserves the index-validity invariant, and any evidence used
to answer in that rerun consists of chunks derived from the widget sources
active at that rerun. -/
theorem rerun_preserves (embed : String → List Int)
    (simFn : List Int → List Int → Int) (embedQuery : String → List Int)
    (load : List Source → List Doc) (split : List Doc → List Doc)
    (st : Session) (inp : RerunInput)
    (hInv : SessionInv embed load split st) :
    SessionInv embed load split (rerun embed simFn embedQuery load split st inp).1 ∧
    (∀ ev, (rerun embed simFn embedQuery load split st inp).2 = some ev →
      ∀ d ∈ ev, d ∈ split (load inp.sources)) := by
  unfold rerun
  by_cases hb : (maybeBuild embed load split (invalidateIfChanged st inp.sources) inp).knowledge_base_built = false
  · rw [if_pos hb]
    refine ⟨?_, ?_⟩
    · intro h
      rw [hb] at h
      cases h
    · intro ev hev
      cases hev
  · rw [if_neg hb]
    have hb2 : (maybeBuild embed load split (invalidateIfChanged st inp.sources) inp).knowledge_base_built = true := by
      cases h : (maybeBuild embed load split (invalidateIfChanged st inp.sources) inp).knowledge_base_built
      · exact absurd h hb
      · rfl
    obtain ⟨hcs, hret⟩ := rerun_built_state embed load split st inp hInv hb2
    have hInv2 : SessionInv embed load split
        (maybeBuild embed load split (invalidateIfChanged st inp.sources) inp) := by
      intro h
      rw [hret, hcs]
    cases hui : inp.userInput with
    | none =>
      rw [hret]
      exact ⟨hInv2, fun ev hev => by cases hev⟩
    | some q =>
      rw [hret]
      refine ⟨hInv2, ?_⟩
      intro ev hev d hd
      have hev2 : ev = retrieve_documents simFn
          (buildIndex embed (split (load inp.sources))) (embedQuery q) 3 :=
        (Option.some.injEq _ _ ▸ hev).symm
      rw [hev2] at hd
      exact mem_retrieve_buildIndex embed simFn (embedQuery q) 3 _ d hd

/-- C7: the index-validity invariant holds in every reachable session state
(a built session always holds exactly the index built from its recorded
source set, a changed source set having invalidated any older index), and no
question is ever answered with chunks not derived from the source set active
at that rerun. -/
theorem index_validity (embed : String → List Int)
    (simFn : List Int → List Int → Int) (embedQuery : String → List Int)
    (load : List Source → List Doc) (split : List Doc → List Doc)
    (evs : List RerunInput) :
    SessionInv embed load split
      (runReruns embed simFn embedQuery load split evs initSession).1 ∧
    ∀ r ∈ (runReruns embed simFn embedQuery load split evs initSession).2,
      ∀ d ∈ r.2, d ∈ split (load r.1) := by
  have hgen : ∀ (l : List RerunInput) (st : Session),
      SessionInv embed load split st →
      SessionInv embed load split (runReruns embed simFn embedQuery load split l st).1 ∧
      ∀ r ∈ (runReruns embed simFn embedQuery load split l st).2,
        ∀ d ∈ r.2, d ∈ split (load r.1) := by
    intro l
    induction l with
    | nil =>
      intro st h
      refine ⟨h, ?_⟩
      intro r hr
      simp [runReruns] at hr
    | cons inp rest ih =>
      intro st h
      have hs := rerun_preserves embed simFn embedQuery load split st inp h
      have hrest := ih _ hs.1
      refine ⟨hrest.1, ?_⟩
      intro r hrm d hd
      simp only [runReruns] at hrm
      rcases List.mem_append.mp hrm with hl | hrt
      · cases hans : (rerun embed simFn embedQuery load split st inp).2 with
        | none =>
          rw [hans] at hl
          cases hl
        | some ev =>
          rw [hans] at hl
          rcases List.mem_cons.mp hl with he | habs
          · rw [he] at hd ⊢
            exact hs.2 ev hans d hd
          · cases habs
      · exact hrest.2 r hrt d hd
  exact hgen evs initSession (fun h => by cases h)

/-- Witness for the index-validity theorem on a concrete session: build from
one URL, then ask a question; the final retriever is the index built from
that URL and the evidence chunk used came from that source. -/
theorem index_validity_witness :
    (runReruns lenEmbed dotSim lenEmbed loadW splitW eventsW initSession).1.document_retriever
      = some (buildIndex lenEmbed (splitW (loadW [Source.url "a"]))) ∧
    (⟨"a", "a"⟩ : Doc) ∈ splitW (loadW [Source.url "a"]) := by
  have h := index_validity lenEmbed dotSim lenEmbed loadW splitW eventsW
  constructor
  · exact h.1 (by decide)
  · exact h.2 ([Source.url "a"],
      retrieve_documents dotSim (buildIndex lenEmbed (splitW (loadW [Source.url "a"])))
        (lenEmbed "q") 3)
      (by decide) ⟨"a", "a"⟩ (by decide)

end MixRAG
